import Mathlib

/-!
Verification of the ImpalaPythia backend core against its specification.

Shallow embedding of:
- `ImpalaServer::FragmentExecState::UpdateStatus` (service/fragment-exec-state.cc)
- `RuntimeState` error log, `SetMemLimitExceeded`, `Init` (runtime/runtime-state.cc)
- `RuntimeProfile::HighWaterMarkCounter` (util/runtime-profile.h)
- `RuntimeProfile::AddCounter` / `GetCounter` (util/runtime-profile.h contract)
- `ThriftClientImpl::OpenWithRetry` (rpc/thrift-client.cc)
- `Project::init` / `parseInput` (pythia/operators/project.cpp)

Machine integers (`int64_t`, `int`/`size_t`) are modelled as `Int`/`Nat`, with
two's-complement wrapping made explicit where the source performs native
arithmetic that can overflow.
-/

set_option autoImplicit false

namespace ImpalaPythia

/-- Status codes from `TStatusCode` (generated thrift enum); only the codes the
modelled functions mention are listed, plus a generic constructor for
free-form error statuses built from plain message strings. -/
inductive TStatusCode where
  | internalError
  | cancelled
  | memLimitExceeded
  | generalError
  deriving DecidableEq

/-- The `impala::Status` value: OK, or an error carrying a code and message
(common/status.h, used throughout the sources). -/
inductive Status where
  | ok
  | error (code : TStatusCode) (msg : String)
  deriving DecidableEq

/-- The `Status::ok()` predicate. -/
def Status.isOk : Status → Bool
  | .ok => true
  | .error _ _ => false

/-- The static `Status::MEM_LIMIT_EXCEEDED` status object. -/
def Status.memLimitStatus : Status :=
  .error .memLimitExceeded "Memory limit exceeded"

/-- The `Status::IsMemLimitExceeded()` predicate. -/
def Status.isMemLimitExceeded : Status → Bool
  | .error .memLimitExceeded _ => true
  | _ => false

/-! ### FragmentExecState (service/fragment-exec-state.cc) -/

/-- The slice of `ImpalaServer::FragmentExecState` that `UpdateStatus`
touches: the `exec_status_` field (guarded by `status_lock_`, which a
sequential model does not need). -/
structure FragmentExecState where
  execStatus : Status
  deriving DecidableEq

/-- `FragmentExecState::UpdateStatus(status)`: under `status_lock_`, if the
argument is non-OK and `exec_status_` is OK, overwrite `exec_status_`;
return the (possibly updated) `exec_status_`. -/
def FragmentExecState.updateStatus (status : Status) (st : FragmentExecState) :
    Status × FragmentExecState :=
  let st' := if ¬ status.isOk ∧ st.execStatus.isOk then { st with execStatus := status } else st
  (st'.execStatus, st')

/-- Apply a sequence of `UpdateStatus` calls, in order, discarding the
returned statuses. -/
def FragmentExecState.runUpdates (seq : List Status) (st : FragmentExecState) :
    FragmentExecState :=
  seq.foldl (fun s status => (FragmentExecState.updateStatus status s).2) st

/-- The first non-OK status in a list, or OK when there is none. -/
def firstNonOk : List Status → Status
  | [] => .ok
  | s :: rest => if s.isOk then firstNonOk rest else s

/-! ### HighWaterMarkCounter (util/runtime-profile.h) -/

/-- Two's-complement wrap of an unbounded integer into the `int64_t` range,
modelling `AtomicInt<int64_t>` arithmetic. -/
def wrap64 (x : Int) : Int :=
  (x + 2 ^ 63) % 2 ^ 64 - 2 ^ 63

/-- `RuntimeProfile::HighWaterMarkCounter`: `value` is the inherited
`Counter::value_` (the high water mark), `currentValue` is
`current_value_`. A freshly constructed counter has both fields zero
(`Counter(type)` zero-initialises `value_`; `AtomicInt` default-initialises
to 0). -/
structure HighWaterMarkCounter where
  value : Int
  currentValue : Int
  deriving DecidableEq

/-- A freshly created counter. -/
def HighWaterMarkCounter.fresh : HighWaterMarkCounter := ⟨0, 0⟩

/-- `HighWaterMarkCounter::Update(delta)`:
`current_value_.UpdateAndFetch(delta)` (native int64 add), then
`value_.UpdateMax(new_val)`. -/
def HighWaterMarkCounter.update (delta : Int) (c : HighWaterMarkCounter) :
    HighWaterMarkCounter :=
  let newVal := wrap64 (c.currentValue + delta)
  { currentValue := newVal, value := max c.value newVal }

/-- Apply a sequence of `Update` calls in order. -/
def HighWaterMarkCounter.runHwmUpdates (deltas : List Int) (c : HighWaterMarkCounter) :
    HighWaterMarkCounter :=
  deltas.foldl (fun acc d => HighWaterMarkCounter.update d acc) c

/-- `HighWaterMarkCounter::TryUpdate(delta, max)`: computes
`new_val = old_val + delta` (native int64 add); if `new_val > max` returns
false without changing anything, otherwise installs `new_val` (the CAS loop
of the source always succeeds in this sequential model), raises the high
water mark, and returns true. -/
def HighWaterMarkCounter.tryUpdate (delta mx : Int) (c : HighWaterMarkCounter) :
    Bool × HighWaterMarkCounter :=
  let newVal := wrap64 (c.currentValue + delta)
  if newVal > mx then (false, c)
  else (true, { currentValue := newVal, value := max c.value newVal })

/-! ### RuntimeState (runtime/runtime-state.cc) -/

/-- The query options the modelled `RuntimeState` functions read
(`TQueryOptions`, reached as `query_ctxt_.request.query_options`).
`maxErrors` and `batchSize` are C++ `int` fields, modelled as `Int`. -/
structure QueryOptions where
  disableCodegen : Bool
  maxErrors : Int
  batchSize : Int
  deriving DecidableEq

/-- The slice of `RuntimeState` the modelled functions touch. `errorLog` is
`error_log_` (a `vector<string>`), `unreportedErrorIdx` is
`unreported_error_idx_`, `queryStatus` is `query_status_`.
`processLimitExceeded`, `processUsage` and `queryUsage` model the values
`exec_env_->process_mem_tracker()->LimitExceeded()`,
`exec_env_->process_mem_tracker()->LogUsage()` and
`query_mem_tracker_->LogUsage()` that `SetMemLimitExceeded` reads (the
`MemTracker` sources are outside this corpus, so the values those calls
return are carried as state). Locks are dropped in this sequential model. -/
structure RuntimeState where
  queryStatus : Status
  errorLog : List String
  unreportedErrorIdx : Nat
  queryOptions : QueryOptions
  processLimitExceeded : Bool
  processUsage : String
  queryUsage : String
  deriving DecidableEq

/-- Conversion of a C++ `int` to `size_t`, as performed implicitly by the
comparison `error_log_.size() < ...max_errors` in `LogError` (the signed
operand converts to the unsigned type). -/
def asSizeT (x : Int) : Nat :=
  (x % 2 ^ 64).toNat

/-- `RuntimeState::LogError(const string&)`: appends the message when
`error_log_.size() < max_errors` and returns true; otherwise drops the
message and returns false. -/
def RuntimeState.logError (msg : String) (st : RuntimeState) :
    RuntimeState × Bool :=
  if st.errorLog.length < asSizeT st.queryOptions.maxErrors then
    ({ st with errorLog := st.errorLog ++ [msg] }, true)
  else
    (st, false)

/-- Apply a sequence of `LogError` calls in order. -/
def RuntimeState.runLogErrors (msgs : List String) (st : RuntimeState) :
    RuntimeState :=
  msgs.foldl (fun s m => (RuntimeState.logError m s).1) st

/-- `RuntimeState::GetUnreportedErrors(new_errors)`: when the watermark is
behind the log, assigns the suffix of the log from the watermark into the
output vector and advances the watermark to the end of the log; otherwise
leaves the (freshly default-constructed, hence empty) output vector
untouched. The returned list is the content of the output vector. -/
def RuntimeState.getUnreportedErrors (st : RuntimeState) :
    List String × RuntimeState :=
  if st.unreportedErrorIdx < st.errorLog.length then
    (st.errorLog.drop st.unreportedErrorIdx,
     { st with unreportedErrorIdx := st.errorLog.length })
  else
    ([], st)

/-- `RuntimeState::ErrorLogIsEmpty()`: the source returns
`error_log_.size() > 0`, verbatim. -/
def RuntimeState.errorLogIsEmpty (st : RuntimeState) : Bool :=
  st.errorLog.length > 0

/-- Rendering of `PrettyPrinter::Print(value, TCounterType::BYTES)`. The
implementation lives in util/pretty-printer.h, outside this corpus; the
claims never look inside the rendered number, so any injective rendering
serves. -/
def prettyPrintBytes (v : Int) : String :=
  toString v ++ " bytes"

/-- The log message `RuntimeState::SetMemLimitExceeded` builds in its
stringstream: the header line, then (when `failed_allocation_size != 0`)
the tracker's failed-allocation line, then the process tracker's usage dump
when that tracker exceeded its limit and the query tracker's otherwise. -/
def memLimitLogMessage (trackerLabel : String) (failedAllocationSize : Int)
    (st : RuntimeState) : String :=
  "Memory Limit Exceeded\n"
    ++ (if failedAllocationSize ≠ 0 then
          "  " ++ trackerLabel ++ " could not allocate "
            ++ prettyPrintBytes failedAllocationSize
            ++ " without exceeding limit.\n"
        else "")
    ++ (if st.processLimitExceeded then st.processUsage else st.queryUsage)

/-- `RuntimeState::SetMemLimitExceeded(tracker, failed_allocation_size)`:
under `query_status_lock_`, if `query_status_` is OK it becomes
`Status::MEM_LIMIT_EXCEEDED`, else the existing status is returned
immediately; on the transition path the detailed message is built and
handed to `LogError`, and the (now MEM_LIMIT_EXCEEDED) status returned. -/
def RuntimeState.setMemLimitExceeded (trackerLabel : String)
    (failedAllocationSize : Int) (st : RuntimeState) : Status × RuntimeState :=
  if st.queryStatus.isOk then
    let st1 := { st with queryStatus := Status.memLimitStatus }
    let st2 := (RuntimeState.logError
      (memLimitLogMessage trackerLabel failedAllocationSize st1) st1).1
    (st2.queryStatus, st2)
  else
    (st.queryStatus, st)

/-- The compile-time constant `RuntimeState::DEFAULT_BATCH_SIZE`, declared in
runtime/runtime-state.h (outside this corpus). The claims use it only
symbolically; its numeric value is irrelevant to every theorem below. -/
def DEFAULT_BATCH_SIZE : Int := 1024

/-- `RuntimeState::Init(fragment_instance_id, exec_env)`, restricted to what
it does to the query options: when codegen is enabled,
`RETURN_IF_ERROR(CreateCodegen())` can return early with the codegen
status (modelled as the parameter `codegenStatus`) before any clamping;
otherwise non-positive `max_errors` is set to 100, non-positive
`batch_size` is set to `DEFAULT_BATCH_SIZE`, and OK is returned (profile
timer registration is observable only through the profile, which this
slice does not model). -/
def runtimeStateInit (codegenStatus : Status) (opts : QueryOptions) :
    Status × QueryOptions :=
  if ¬ opts.disableCodegen ∧ ¬ codegenStatus.isOk then
    (codegenStatus, opts)
  else
    let opts1 := if opts.maxErrors ≤ 0 then { opts with maxErrors := 100 } else opts
    let opts2 := if opts1.batchSize ≤ 0 then { opts1 with batchSize := DEFAULT_BATCH_SIZE }
                 else opts1
    (Status.ok, opts2)

/-! ### ThriftClientImpl::OpenWithRetry (rpc/thrift-client.cc) -/

/-- The retry loop of `ThriftClientImpl::OpenWithRetry`. The outcome of the
`i`-th `Open()` call (0-based) is supplied by the oracle `openResult`;
`tc` is the value of `try_count` on entry to the loop body, and `fuel`
bounds the number of iterations this model unrolls (the source loop has no
bound; `SleepForMs` and logging have no modelled effect). Returns the
final status paired with the number of `Open()` calls made, or `none` when
`fuel` iterations did not reach a `return`. -/
def openWithRetryGo (openResult : Nat → Status) (numTries : Nat) :
    Nat → Nat → Option (Status × Nat)
  | _, 0 => none
  | tc, fuel + 1 =>
    let tc' := tc + 1
    let status := openResult tc
    if status.isOk then some (status, tc')
    else if numTries ≠ 0 ∧ tc' = numTries then some (status, tc')
    else openWithRetryGo openResult numTries tc' fuel

/-- `ThriftClientImpl::OpenWithRetry(num_tries, wait_ms)` with `try_count`
starting at 0. `wait_ms` only feeds `SleepForMs` and is omitted. -/
def openWithRetry (openResult : Nat → Status) (numTries : Nat) (fuel : Nat) :
    Option (Status × Nat) :=
  openWithRetryGo openResult numTries 0 fuel

/-! ### RuntimeProfile counter map (util/runtime-profile.h)

The bodies of `RuntimeProfile::AddCounter` and `RuntimeProfile::GetCounter`
live in util/runtime-profile.cc, which is not part of this corpus; only
their declarations and contracts in util/runtime-profile.h are. The model
below follows the header's contract. -/

/-- Counter type tags (`TCounterType::type`). -/
inductive TCounterType where
  | unit
  | bytes
  | timeNs
  | doubleValue
  | bitmap
  deriving DecidableEq

/-- Modelled from the spec: a counter object registered in a profile's
`counter_map_`. Pointer identity of the heap-allocated `Counter` is
represented by the allocation ordinal `id`; `ctype` is the type passed at
creation. -/
structure ProfileCounter where
  id : Nat
  ctype : TCounterType
  deriving DecidableEq

/-- Modelled from the spec: the slice of `RuntimeProfile` holding the
counter map. `counters` is `counter_map_` as an association list (name to
counter object); `nextId` generates fresh object identities. -/
structure RuntimeProfile where
  counters : List (String × ProfileCounter)
  nextId : Nat
  deriving DecidableEq

/-- A profile with no registered counters. -/
def RuntimeProfile.empty : RuntimeProfile := ⟨[], 0⟩

/-- Modelled from the spec: `RuntimeProfile::AddCounter(name, type)` per the
header contract — "If the counter already exists, the existing counter
object is returned", otherwise a counter is created, registered under
`name`, and returned. -/
def RuntimeProfile.addCounter (name : String) (t : TCounterType)
    (p : RuntimeProfile) : ProfileCounter × RuntimeProfile :=
  match p.counters.lookup name with
  | some c => (c, p)
  | none =>
    let c : ProfileCounter := ⟨p.nextId, t⟩
    (c, { counters := p.counters ++ [(name, c)], nextId := p.nextId + 1 })

/-- Modelled from the spec: `RuntimeProfile::GetCounter(name)` — the counter
registered under `name`, or NULL (`none`) when there is none. -/
def RuntimeProfile.getCounter (name : String) (p : RuntimeProfile) :
    Option ProfileCounter :=
  p.counters.lookup name

/-- A profile built from the empty profile by a sequence of `AddCounter`
calls (every reachable counter map arises this way, since `AddCounter` and
its siblings are the only writers of `counter_map_`). -/
def buildProfile (ops : List (String × TCounterType)) : RuntimeProfile :=
  ops.foldl (fun p op => (RuntimeProfile.addCounter op.1 op.2 p).2) RuntimeProfile.empty

/-! ### Project operator (pythia/operators/project.cpp) -/

/-- Whitespace for the default-`skipws` `istringstream` extraction
(`std::isspace` in the "C" locale). -/
def isSpaceChar (c : Char) : Bool :=
  c == ' ' || c == '\t' || c == '\n' || c == '\x0b' || c == '\x0c' || c == '\r'

/-- Numeric value of a digit run. -/
def digitsToNat (ds : List Char) : Nat :=
  ds.foldl (fun acc c => acc * 10 + (c.toNat - '0'.toNat)) 0

/-- The `int` extraction `ss >> ret` of an `istringstream` holding `l`:
skip whitespace, read an optional sign and a digit run, fail (`none`, the
stream's failbit) when there is no digit or the value overflows `int`
(C++11 range error also sets failbit). Trailing characters are left
unread and do not fail the extraction. -/
def istreamReadInt (l : List Char) : Option Int :=
  let body := l.dropWhile isSpaceChar
  let signed : Bool × List Char :=
    match body with
    | '-' :: rest => (true, rest)
    | '+' :: rest => (false, rest)
    | _ => (false, body)
  let ds := signed.2.takeWhile Char.isDigit
  if ds.isEmpty then none
  else
    let v : Int := (digitsToNat ds : Int)
    if signed.1 then
      if v ≤ 2 ^ 31 then some (-v) else none
    else
      if v ≤ 2 ^ 31 - 1 then some v else none

/-- `parseInput(s)` from project.cpp: drop everything before the first `$`
(return -1 when there is none), then extract an `int` from the remainder;
on a failed extraction return -1, otherwise the extracted value. -/
def parseInput (s : List Char) : Int :=
  match s.dropWhile (fun c => ¬ c = '$') with
  | [] => -1
  | _ :: remainder =>
    match istreamReadInt remainder with
    | some v => v
    | none => -1

/-- The exceptions `Project::init` can throw. -/
inductive PythiaError where
  | invalidParameter
  | illegalSchemaDeclaration
  deriving DecidableEq

/-- The validation loop of `Project::init`: for each projection entry,
`parseInput` it; a result `<= -1` throws `InvalidParameter`; a result
whose `unsigned int` cast is `>= columns` (the cast is exact since the
value is non-negative here) throws `IllegalSchemaDeclarationException`;
otherwise the value is pushed onto `projlist`. `columns` is
`nextOp->getOutSchema().columns()`. -/
def projectInit (columns : Nat) : List (List Char) → Except PythiaError (List Int)
  | [] => .ok []
  | e :: rest =>
    let projattr := parseInput e
    if projattr ≤ -1 then .error .invalidParameter
    else if columns ≤ projattr.toNat then .error .illegalSchemaDeclaration
    else
      match projectInit columns rest with
      | .ok l => .ok (projattr :: l)
      | .error err => .error err

/-- `Project::map` on one source tuple, abstracted to attribute lists: the
output row reads source attribute `projlist[i]` for each `i`
(`srcschema.calcOffset(tuple, projlist[i])`); `none` stands for a read
past the end of the source schema. -/
def projectMapRow (row : List Int) (projlist : List Int) : List (Option Int) :=
  projlist.map (fun i => row.get? i.toNat)

/-! ## Helper lemmas -/

theorem Status.isOk_true_iff (s : Status) : s.isOk = true ↔ s = .ok := by
  cases s <;> simp [Status.isOk]

theorem FragmentExecState.runUpdates_cons (s : Status) (seq : List Status)
    (st : FragmentExecState) :
    FragmentExecState.runUpdates (s :: seq) st =
      FragmentExecState.runUpdates seq (FragmentExecState.updateStatus s st).2 := rfl

theorem FragmentExecState.updateStatus_of_nonOk (s : Status) (st : FragmentExecState)
    (h : st.execStatus.isOk = false) :
    FragmentExecState.updateStatus s st = (st.execStatus, st) := by
  unfold FragmentExecState.updateStatus
  simp [h]

theorem FragmentExecState.runUpdates_stuck (seq : List Status) (st : FragmentExecState)
    (h : st.execStatus.isOk = false) :
    FragmentExecState.runUpdates seq st = st := by
  induction seq with
  | nil => rfl
  | cons s rest ih =>
    rw [FragmentExecState.runUpdates_cons, FragmentExecState.updateStatus_of_nonOk s st h]
    exact ih

theorem FragmentExecState.updateStatus_execStatus_nonOk (err : Status)
    (st : FragmentExecState) (h : err.isOk = false) :
    ((FragmentExecState.updateStatus err st).2.execStatus).isOk = false := by
  unfold FragmentExecState.updateStatus
  by_cases hok : st.execStatus.isOk = true
  · simp [h, hok]
  · simp only [Bool.not_eq_true] at hok
    simp [hok]

theorem FragmentExecState.runUpdates_from_ok (seq : List Status) :
    (FragmentExecState.runUpdates seq ⟨Status.ok⟩).execStatus = firstNonOk seq := by
  induction seq with
  | nil => rfl
  | cons s rest ih =>
    rw [FragmentExecState.runUpdates_cons]
    by_cases hs : s.isOk = true
    · have h1 : FragmentExecState.updateStatus s ⟨Status.ok⟩ = (Status.ok, ⟨Status.ok⟩) := by
        unfold FragmentExecState.updateStatus
        simp [hs]
      rw [h1, firstNonOk, if_pos hs]
      exact ih
    · simp only [Bool.not_eq_true] at hs
      have h1 : FragmentExecState.updateStatus s ⟨Status.ok⟩ = (s, ⟨s⟩) := by
        simp only [FragmentExecState.updateStatus]
        rw [if_pos ⟨by simp [hs], rfl⟩]
      rw [h1, firstNonOk, if_neg (by simp [hs])]
      rw [FragmentExecState.runUpdates_stuck rest ⟨s⟩ hs]

/-! ## Claims -/

/-- C1: for every FragmentExecState and every sequence of `UpdateStatus`
calls, the first non-OK argument wins: starting from an OK `exec_status`,
running a call sequence leaves `exec_status` equal to the first non-OK
status of the sequence (or OK if there is none); `UpdateStatus` returns the
resulting `exec_status`; once `exec_status` is non-OK no later call changes
the state; and after any `UpdateStatus(err)` with `err` non-OK,
`exec_status.ok()` is false after every further call sequence. -/
theorem updateStatus_first_nonOk_wins_sticky (st0 st : FragmentExecState)
    (s err : Status) (seq tail : List Status) :
    (st0.execStatus = Status.ok →
      (FragmentExecState.runUpdates seq st0).execStatus = firstNonOk seq) ∧
    (FragmentExecState.updateStatus s st).1 =
      (FragmentExecState.updateStatus s st).2.execStatus ∧
    (st.execStatus.isOk = false → FragmentExecState.runUpdates tail st = st) ∧
    (err.isOk = false →
      ((FragmentExecState.runUpdates tail
          (FragmentExecState.updateStatus err st).2).execStatus).isOk = false) := by
  refine ⟨?_, rfl, FragmentExecState.runUpdates_stuck tail st, ?_⟩
  · intro h0
    have : st0 = ⟨Status.ok⟩ := by cases st0; simp_all
    rw [this]
    exact FragmentExecState.runUpdates_from_ok seq
  · intro herr
    have hne := FragmentExecState.updateStatus_execStatus_nonOk err st herr
    rw [FragmentExecState.runUpdates_stuck tail _ hne]
    exact hne

/-- C1 witness: the property instantiated at a concrete exec state and
status sequence. -/
theorem updateStatus_first_nonOk_wins_sticky_witness :
    ((FragmentExecState.runUpdates
        [Status.ok, Status.error .internalError "boom", Status.ok,
         Status.error .cancelled "late"] ⟨Status.ok⟩).execStatus =
      firstNonOk
        [Status.ok, Status.error .internalError "boom", Status.ok,
         Status.error .cancelled "late"]) ∧
    (FragmentExecState.updateStatus (Status.error .internalError "boom")
        ⟨Status.error .cancelled "c"⟩).1 =
      (FragmentExecState.updateStatus (Status.error .internalError "boom")
        ⟨Status.error .cancelled "c"⟩).2.execStatus ∧
    (FragmentExecState.runUpdates [Status.ok, Status.error .internalError "boom"]
        ⟨Status.error .cancelled "c"⟩ = ⟨Status.error .cancelled "c"⟩) ∧
    ((FragmentExecState.runUpdates [Status.ok, Status.error .internalError "boom"]
        (FragmentExecState.updateStatus (Status.error .internalError "first")
          ⟨Status.error .cancelled "c"⟩).2).execStatus).isOk = false := by
  have h := updateStatus_first_nonOk_wins_sticky ⟨Status.ok⟩
    ⟨Status.error .cancelled "c"⟩ (Status.error .internalError "boom")
    (Status.error .internalError "first")
    [Status.ok, Status.error .internalError "boom", Status.ok,
     Status.error .cancelled "late"]
    [Status.ok, Status.error .internalError "boom"]
  exact ⟨h.1 rfl, h.2.1, h.2.2.1 rfl, h.2.2.2 rfl⟩

theorem wrap64_eq_of_range (x : Int) (h1 : -2 ^ 63 ≤ x) (h2 : x < 2 ^ 63) :
    wrap64 x = x := by
  unfold wrap64
  omega

/-- C4: `HighWaterMarkCounter::Update(delta)` adds `delta` to the current
value (exactly, whenever the int64 addition does not overflow) and raises
the reported `value()` to the maximum of its old value and the new current
value; the sequence `Update(+3), Update(+2), Update(-4), Update(+1)` on a
fresh counter ends with `current_value() = 2` and `value() = 5`. -/
theorem hwm_update_spec (c : HighWaterMarkCounter) (delta : Int) :
    (-2 ^ 63 ≤ c.currentValue + delta → c.currentValue + delta < 2 ^ 63 →
      (c.update delta).currentValue = c.currentValue + delta ∧
      (c.update delta).value = max c.value (c.currentValue + delta)) ∧
    (HighWaterMarkCounter.runHwmUpdates [3, 2, -4, 1]
        HighWaterMarkCounter.fresh).currentValue = 2 ∧
    (HighWaterMarkCounter.runHwmUpdates [3, 2, -4, 1]
        HighWaterMarkCounter.fresh).value = 5 := by
  refine ⟨?_, by decide, by decide⟩
  intro h1 h2
  unfold HighWaterMarkCounter.update
  rw [wrap64_eq_of_range _ h1 h2]
  exact ⟨rfl, rfl⟩

/-- C4 witness: the update law instantiated on a fresh counter and
`delta = 3`. -/
theorem hwm_update_spec_witness :
    ((HighWaterMarkCounter.fresh.update 3).currentValue =
        HighWaterMarkCounter.fresh.currentValue + 3 ∧
      (HighWaterMarkCounter.fresh.update 3).value =
        max HighWaterMarkCounter.fresh.value
          (HighWaterMarkCounter.fresh.currentValue + 3)) ∧
    (HighWaterMarkCounter.runHwmUpdates [3, 2, -4, 1]
        HighWaterMarkCounter.fresh).currentValue = 2 ∧
    (HighWaterMarkCounter.runHwmUpdates [3, 2, -4, 1]
        HighWaterMarkCounter.fresh).value = 5 := by
  have h := hwm_update_spec HighWaterMarkCounter.fresh 3
  exact ⟨h.1 (by decide) (by decide), h.2.1, h.2.2⟩

/-- C5: `HighWaterMarkCounter::TryUpdate(delta, max)` (with the int64 sum
in range, so the native addition does not wrap): when
`current_value + delta > max` it returns false and changes nothing;
otherwise it returns true, sets the current value to
`current_value + delta` and raises the high water mark to at least that
value. -/
theorem hwm_tryUpdate_spec (c : HighWaterMarkCounter) (delta mx : Int)
    (h1 : -2 ^ 63 ≤ c.currentValue + delta) (h2 : c.currentValue + delta < 2 ^ 63) :
    HighWaterMarkCounter.tryUpdate delta mx c =
      (if c.currentValue + delta > mx then (false, c)
       else (true, { value := max c.value (c.currentValue + delta),
                     currentValue := c.currentValue + delta })) ∧
    (c.currentValue + delta ≤ mx →
      c.currentValue + delta ≤ (HighWaterMarkCounter.tryUpdate delta mx c).2.value) := by
  have heq : HighWaterMarkCounter.tryUpdate delta mx c =
      (if c.currentValue + delta > mx then (false, c)
       else (true, { value := max c.value (c.currentValue + delta),
                     currentValue := c.currentValue + delta })) := by
    unfold HighWaterMarkCounter.tryUpdate
    rw [wrap64_eq_of_range _ h1 h2]
  refine ⟨heq, ?_⟩
  intro hle
  rw [heq, if_neg (by omega)]
  exact le_max_right _ _

/-- C5 witness: `TryUpdate` instantiated on a fresh counter, once over the
bound and once within it. -/
theorem hwm_tryUpdate_spec_witness :
    (HighWaterMarkCounter.tryUpdate 7 5 HighWaterMarkCounter.fresh =
      (false, HighWaterMarkCounter.fresh)) ∧
    (HighWaterMarkCounter.tryUpdate 4 5 HighWaterMarkCounter.fresh =
      (true, { value := 4, currentValue := 4 })) ∧
    (4 : Int) ≤ (HighWaterMarkCounter.tryUpdate 4 5 HighWaterMarkCounter.fresh).2.value := by
  have hover := hwm_tryUpdate_spec HighWaterMarkCounter.fresh 7 5 (by decide) (by decide)
  have hin := hwm_tryUpdate_spec HighWaterMarkCounter.fresh 4 5 (by decide) (by decide)
  refine ⟨?_, ?_, ?_⟩
  · rw [hover.1]; decide
  · rw [hin.1]; decide
  · exact hin.2 (by decide)

theorem RuntimeState.runLogErrors_cons (m : String) (msgs : List String)
    (st : RuntimeState) :
    RuntimeState.runLogErrors (m :: msgs) st =
      RuntimeState.runLogErrors msgs (RuntimeState.logError m st).1 := rfl

theorem RuntimeState.logError_queryOptions (m : String) (st : RuntimeState) :
    (RuntimeState.logError m st).1.queryOptions = st.queryOptions := by
  unfold RuntimeState.logError
  split <;> rfl

theorem RuntimeState.logError_length_le (m : String) (st : RuntimeState)
    (h : st.errorLog.length ≤ asSizeT st.queryOptions.maxErrors) :
    (RuntimeState.logError m st).1.errorLog.length ≤
      asSizeT st.queryOptions.maxErrors := by
  unfold RuntimeState.logError
  split
  · next hlt => simpa using hlt
  · exact h

theorem RuntimeState.runLogErrors_length_le (msgs : List String) :
    ∀ st : RuntimeState,
      st.errorLog.length ≤ asSizeT st.queryOptions.maxErrors →
      (RuntimeState.runLogErrors msgs st).errorLog.length ≤
        asSizeT st.queryOptions.maxErrors := by
  induction msgs with
  | nil => intro st h; exact h
  | cons m rest ih =>
    intro st h
    rw [RuntimeState.runLogErrors_cons]
    have h1 := RuntimeState.logError_length_le m st h
    rw [← RuntimeState.logError_queryOptions m st] at h1 ⊢
    exact ih _ h1

/-- C3: the error log never exceeds `max_errors` entries (any `LogError`
sequence preserves the bound); once the log has reached `max_errors`
entries, `LogError` returns false and leaves the state unchanged; for the
values `Init` guarantees (`max_errors` non-negative), the `size_t` bound
the source compares against is just `max_errors`; and a second
`GetUnreportedErrors` with no intervening `LogError` yields an empty
list. -/
theorem errorLog_bounded_unreported_drained (stA stB stC : RuntimeState)
    (m : String) (msgs : List String) :
    (stA.errorLog.length ≤ asSizeT stA.queryOptions.maxErrors →
      (RuntimeState.runLogErrors msgs stA).errorLog.length ≤
        asSizeT stA.queryOptions.maxErrors) ∧
    (asSizeT stB.queryOptions.maxErrors ≤ stB.errorLog.length →
      RuntimeState.logError m stB = (stB, false)) ∧
    (0 ≤ stB.queryOptions.maxErrors → stB.queryOptions.maxErrors < 2 ^ 31 →
      asSizeT stB.queryOptions.maxErrors = stB.queryOptions.maxErrors.toNat) ∧
    (RuntimeState.getUnreportedErrors
        (RuntimeState.getUnreportedErrors stC).2).1 = [] := by
  refine ⟨RuntimeState.runLogErrors_length_le msgs stA, ?_, ?_, ?_⟩
  · intro hfull
    unfold RuntimeState.logError
    rw [if_neg (by omega)]
  · intro hnn hub
    unfold asSizeT
    omega
  · unfold RuntimeState.getUnreportedErrors
    split <;> simp

/-- C3 witness: the bound, the drop and the drained second read at a
concrete state with `max_errors = 1`. -/
theorem errorLog_bounded_unreported_drained_witness :
    ((RuntimeState.runLogErrors ["a", "b"]
        ⟨Status.ok, ["x"], 0, ⟨true, 1, 1024⟩, false, "P", "Q"⟩).errorLog.length ≤
      asSizeT (1 : Int)) ∧
    (RuntimeState.logError "c" ⟨Status.ok, ["x"], 0, ⟨true, 1, 1024⟩, false, "P", "Q"⟩ =
      (⟨Status.ok, ["x"], 0, ⟨true, 1, 1024⟩, false, "P", "Q"⟩, false)) ∧
    asSizeT (1 : Int) = (1 : Int).toNat ∧
    (RuntimeState.getUnreportedErrors
        (RuntimeState.getUnreportedErrors
          ⟨Status.ok, ["x"], 0, ⟨true, 1, 1024⟩, false, "P", "Q"⟩).2).1 = [] := by
  have h := errorLog_bounded_unreported_drained
    ⟨Status.ok, ["x"], 0, ⟨true, 1, 1024⟩, false, "P", "Q"⟩
    ⟨Status.ok, ["x"], 0, ⟨true, 1, 1024⟩, false, "P", "Q"⟩
    ⟨Status.ok, ["x"], 0, ⟨true, 1, 1024⟩, false, "P", "Q"⟩
    "c" ["a", "b"]
  exact ⟨h.1 (by decide), h.2.1 (by decide), h.2.2.1 (by decide) (by decide), h.2.2.2⟩

/-- C2 counterexample: a RuntimeState whose query status is OK but whose
error log is already at `max_errors` capacity (here `max_errors = 1` with
one entry). `SetMemLimitExceeded` transitions the status to
MEM_LIMIT_EXCEEDED, yet appends no log entry — `LogError` drops the
message — refuting "transitions it to MEM_LIMIT_EXCEEDED and appends
exactly one detailed log entry". -/
theorem setMemLimitExceeded_full_log_drops_entry :
    (Status.isOk (RuntimeState.queryStatus
      ⟨Status.ok, ["earlier"], 1, ⟨true, 1, 1024⟩, false, "P", "Q"⟩) = true) ∧
    (RuntimeState.setMemLimitExceeded "inst" 50
      ⟨Status.ok, ["earlier"], 1, ⟨true, 1, 1024⟩, false, "P", "Q"⟩).2.queryStatus =
      Status.memLimitStatus ∧
    (RuntimeState.setMemLimitExceeded "inst" 50
      ⟨Status.ok, ["earlier"], 1, ⟨true, 1, 1024⟩, false, "P", "Q"⟩).2.errorLog =
      ["earlier"] := by
  refine ⟨rfl, ?_, ?_⟩ <;> decide

/-- C2 (amended): when `query_status` is OK, `SetMemLimitExceeded`
transitions it to MEM_LIMIT_EXCEEDED and — provided the error log has not
already reached `max_errors` entries — appends exactly one detailed log
entry ending in the process-tracker usage dump if the process tracker
exceeded its limit and the query-tracker usage dump otherwise (when the
log is full the status still transitions but the entry is silently
dropped); when `query_status` is already non-OK, the call returns the
existing status at once, with no state change and no logging. -/
theorem setMemLimitExceeded_amended_spec (stGood stFull stBad : RuntimeState)
    (label : String) (sz : Int) :
    (stGood.queryStatus.isOk = true →
      stGood.errorLog.length < asSizeT stGood.queryOptions.maxErrors →
        (RuntimeState.setMemLimitExceeded label sz stGood).1 = Status.memLimitStatus ∧
        (RuntimeState.setMemLimitExceeded label sz stGood).2.queryStatus =
          Status.memLimitStatus ∧
        (RuntimeState.setMemLimitExceeded label sz stGood).2.errorLog =
          stGood.errorLog ++ [memLimitLogMessage label sz stGood] ∧
        ∃ p, memLimitLogMessage label sz stGood =
          p ++ (if stGood.processLimitExceeded then stGood.processUsage
                else stGood.queryUsage)) ∧
    (stFull.queryStatus.isOk = true →
      asSizeT stFull.queryOptions.maxErrors ≤ stFull.errorLog.length →
        (RuntimeState.setMemLimitExceeded label sz stFull).1 = Status.memLimitStatus ∧
        (RuntimeState.setMemLimitExceeded label sz stFull).2.errorLog =
          stFull.errorLog) ∧
    (stBad.queryStatus.isOk = false →
      RuntimeState.setMemLimitExceeded label sz stBad = (stBad.queryStatus, stBad)) := by
  refine ⟨?_, ?_, ?_⟩
  · intro hok hroom
    simp only [RuntimeState.setMemLimitExceeded, RuntimeState.logError, hok, if_true]
    rw [if_pos hroom]
    exact ⟨rfl, rfl, rfl, ⟨_, rfl⟩⟩
  · intro hok hfull
    simp only [RuntimeState.setMemLimitExceeded, RuntimeState.logError, hok, if_true]
    rw [if_neg (by omega)]
    exact ⟨rfl, rfl⟩
  · intro hbad
    simp only [RuntimeState.setMemLimitExceeded, hbad, Bool.false_eq_true, if_false]

/-- C2 witness: the amended behaviour at concrete states — a fresh state
with room in the log, a state whose log is full, and the state produced by
the first call (so the second call returns the same MEM_LIMIT_EXCEEDED
status without rewriting). -/
theorem setMemLimitExceeded_amended_spec_witness :
    ((RuntimeState.setMemLimitExceeded "inst" 50
        ⟨Status.ok, [], 0, ⟨true, 100, 1024⟩, false, "P", "Q"⟩).1 =
      Status.memLimitStatus ∧
      (RuntimeState.setMemLimitExceeded "inst" 50
        ⟨Status.ok, [], 0, ⟨true, 100, 1024⟩, false, "P", "Q"⟩).2.queryStatus =
        Status.memLimitStatus ∧
      (RuntimeState.setMemLimitExceeded "inst" 50
        ⟨Status.ok, [], 0, ⟨true, 100, 1024⟩, false, "P", "Q"⟩).2.errorLog =
        [] ++ [memLimitLogMessage "inst" 50
          ⟨Status.ok, [], 0, ⟨true, 100, 1024⟩, false, "P", "Q"⟩] ∧
      ∃ p, memLimitLogMessage "inst" 50
          ⟨Status.ok, [], 0, ⟨true, 100, 1024⟩, false, "P", "Q"⟩ = p ++ "Q") ∧
    ((RuntimeState.setMemLimitExceeded "inst" 50
        ⟨Status.ok, ["earlier"], 1, ⟨true, 1, 1024⟩, false, "P", "Q"⟩).1 =
      Status.memLimitStatus ∧
      (RuntimeState.setMemLimitExceeded "inst" 50
        ⟨Status.ok, ["earlier"], 1, ⟨true, 1, 1024⟩, false, "P", "Q"⟩).2.errorLog =
        ["earlier"]) ∧
    (RuntimeState.setMemLimitExceeded "inst" 50
        (RuntimeState.setMemLimitExceeded "inst" 50
          ⟨Status.ok, [], 0, ⟨true, 100, 1024⟩, false, "P", "Q"⟩).2 =
      ((RuntimeState.setMemLimitExceeded "inst" 50
          ⟨Status.ok, [], 0, ⟨true, 100, 1024⟩, false, "P", "Q"⟩).2.queryStatus,
       (RuntimeState.setMemLimitExceeded "inst" 50
          ⟨Status.ok, [], 0, ⟨true, 100, 1024⟩, false, "P", "Q"⟩).2)) := by
  have h := setMemLimitExceeded_amended_spec
    ⟨Status.ok, [], 0, ⟨true, 100, 1024⟩, false, "P", "Q"⟩
    ⟨Status.ok, ["earlier"], 1, ⟨true, 1, 1024⟩, false, "P", "Q"⟩
    (RuntimeState.setMemLimitExceeded "inst" 50
      ⟨Status.ok, [], 0, ⟨true, 100, 1024⟩, false, "P", "Q"⟩).2
    "inst" 50
  have h1 := h.1 (by decide) (by decide)
  refine ⟨⟨h1.1, h1.2.1, h1.2.2.1, ?_⟩, h.2.1 (by decide) (by decide), h.2.2 (by decide)⟩
  obtain ⟨p, hp⟩ := h1.2.2.2
  exact ⟨p, hp⟩

/-- C6: `RuntimeState::ErrorLogIsEmpty()` evaluated at the failing input.
The source returns `error_log_.size() > 0`, so it answers `false` on a
state whose error log is empty and `true` on a state holding one entry —
the opposite of what the function's name (which the spec treats as
authoritative) requires. -/
theorem errorLogIsEmpty_returns_nonempty :
    RuntimeState.errorLogIsEmpty
      ⟨Status.ok, [], 0, ⟨true, 100, 1024⟩, false, "P", "Q"⟩ = false ∧
    RuntimeState.errorLogIsEmpty
      ⟨Status.ok, ["e"], 0, ⟨true, 100, 1024⟩, false, "P", "Q"⟩ = true := by
  exact ⟨rfl, rfl⟩

/-- C8: whenever `RuntimeState::Init` returns OK, the query options have
been clamped: a non-positive incoming `max_errors` (including 0) is now
100 and a non-positive incoming `batch_size` is now `DEFAULT_BATCH_SIZE`,
while positive incoming values of either option are unchanged (and
`disable_codegen` is untouched). -/
theorem runtimeStateInit_clamps (cg : Status) (opts : QueryOptions)
    (hok : (runtimeStateInit cg opts).1.isOk = true) :
    (runtimeStateInit cg opts).2.maxErrors =
      (if opts.maxErrors ≤ 0 then 100 else opts.maxErrors) ∧
    (runtimeStateInit cg opts).2.batchSize =
      (if opts.batchSize ≤ 0 then DEFAULT_BATCH_SIZE else opts.batchSize) ∧
    (runtimeStateInit cg opts).2.disableCodegen = opts.disableCodegen := by
  unfold runtimeStateInit at hok ⊢
  split at hok
  · next h =>
      rw [Status.isOk_true_iff] at hok
      subst hok
      simp [Status.isOk] at h
  · next h =>
      rw [if_neg h]
      by_cases h1 : opts.maxErrors ≤ 0 <;> by_cases h2 : opts.batchSize ≤ 0 <;>
        simp [h1, h2]

/-- C8 witness: `Init` with codegen disabled and both options zero clamps
`max_errors` to 100 and `batch_size` to the default. -/
theorem runtimeStateInit_clamps_witness :
    (runtimeStateInit Status.ok ⟨true, 0, 0⟩).2.maxErrors =
      (if (0 : Int) ≤ 0 then 100 else 0) ∧
    (runtimeStateInit Status.ok ⟨true, 0, 0⟩).2.batchSize =
      (if (0 : Int) ≤ 0 then DEFAULT_BATCH_SIZE else 0) ∧
    (runtimeStateInit Status.ok ⟨true, 0, 0⟩).2.disableCodegen = true := by
  exact runtimeStateInit_clamps Status.ok ⟨true, 0, 0⟩ (by decide)

theorem openWithRetryGo_first_success (f : Nat → Status) (k : Nat) :
    ∀ (fuel tc j : Nat), tc ≤ j → j - tc < fuel →
      (∀ i, tc ≤ i → i < j → (f i).isOk = false) → (f j).isOk = true →
      (k = 0 ∨ j < k) →
      openWithRetryGo f k tc fuel = some (f j, j + 1) := by
  intro fuel
  induction fuel with
  | zero => intro tc j _ hflt _ _ _; omega
  | succ fuel ih =>
    intro tc j htc hflt hfail hsucc hk
    unfold openWithRetryGo
    by_cases hje : tc = j
    · subst hje
      rw [if_pos hsucc]
    · have htc' : tc < j := by omega
      rw [if_neg (by simp [hfail tc (by omega) htc'])]
      rw [if_neg (by omega)]
      exact ih (tc + 1) j (by omega) (by omega)
        (fun i h1 h2 => hfail i (by omega) h2) hsucc hk

theorem openWithRetryGo_all_fail (f : Nat → Status) (k : Nat) :
    ∀ (fuel tc : Nat), 0 < k → tc < k → k - tc ≤ fuel →
      (∀ i, tc ≤ i → i < k → (f i).isOk = false) →
      openWithRetryGo f k tc fuel = some (f (k - 1), k) := by
  intro fuel
  induction fuel with
  | zero => intro tc hk htc hfuel _; omega
  | succ fuel ih =>
    intro tc hk htc hfuel hfail
    unfold openWithRetryGo
    rw [if_neg (by simp [hfail tc (by omega) htc])]
    by_cases hend : tc + 1 = k
    · rw [if_pos ⟨by omega, hend⟩]
      subst hend
      simp
    · rw [if_neg (by omega)]
      exact ih (tc + 1) hk (by omega) (by omega)
        (fun i h1 h2 => hfail i (by omega) h2)

theorem openWithRetryGo_zero_sound (f : Nat → Status) :
    ∀ (fuel tc : Nat) (s : Status) (n : Nat),
      openWithRetryGo f 0 tc fuel = some (s, n) →
      s.isOk = true ∧ s = f (n - 1) := by
  intro fuel
  induction fuel with
  | zero => intro tc s n h; simp [openWithRetryGo] at h
  | succ fuel ih =>
    intro tc s n h
    unfold openWithRetryGo at h
    by_cases hs : (f tc).isOk = true
    · rw [if_pos hs] at h
      simp only [Option.some.injEq, Prod.mk.injEq] at h
      obtain ⟨rfl, rfl⟩ := h
      exact ⟨hs, by simp⟩
    · rw [if_neg (by simp [hs]), if_neg (by omega)] at h
      exact ih (tc + 1) s n h

theorem openWithRetryGo_zero_none (f : Nat → Status) :
    ∀ (fuel tc : Nat),
      (∀ i, tc ≤ i → i < tc + fuel → (f i).isOk = false) →
      openWithRetryGo f 0 tc fuel = none := by
  intro fuel
  induction fuel with
  | zero => intro tc _; rfl
  | succ fuel ih =>
    intro tc hfail
    unfold openWithRetryGo
    rw [if_neg (by simp [hfail tc (by omega) (by omega)]), if_neg (by omega)]
    exact ih (tc + 1) (fun i h1 h2 => hfail i (by omega) (by omega))

/-- C7: `ThriftClientImpl::OpenWithRetry` with `num_tries = k > 0` makes at
most k `Open` attempts and terminates within any unrolling of at least k
loop iterations, returning the status of the first successful attempt if
one occurs among the first k, and the failing status of the k-th attempt
when all k fail; with `num_tries = 0` it returns the status of the first
successful attempt when there is one, only ever returns an OK status, and
keeps retrying (no result within any finite unrolling) while every
attempt fails. -/
theorem openWithRetry_spec (fFail fSucc fAny : Nat → Status)
    (k fuel j n : Nat) (s : Status) :
    (0 < k → k ≤ fuel → (∀ i, i < k → (fFail i).isOk = false) →
      openWithRetry fFail k fuel = some (fFail (k - 1), k)) ∧
    (j < k → j < fuel → (fSucc j).isOk = true →
      (∀ i, i < j → (fSucc i).isOk = false) →
      openWithRetry fSucc k fuel = some (fSucc j, j + 1) ∧
      openWithRetry fSucc 0 fuel = some (fSucc j, j + 1)) ∧
    (openWithRetry fAny 0 fuel = some (s, n) → s.isOk = true ∧ s = fAny (n - 1)) ∧
    ((∀ i, i < fuel → (fFail i).isOk = false) →
      openWithRetry fFail 0 fuel = none) := by
  refine ⟨?_, ?_, ?_, ?_⟩
  · intro hk hfuel hfail
    exact openWithRetryGo_all_fail fFail k fuel 0 hk hk (by omega)
      (fun i _ h2 => hfail i h2)
  · intro hjk hjf hsucc hfail
    constructor
    · exact openWithRetryGo_first_success fSucc k fuel 0 j (by omega) (by omega)
        (fun i _ h2 => hfail i h2) hsucc (Or.inr hjk)
    · exact openWithRetryGo_first_success fSucc 0 fuel 0 j (by omega) (by omega)
        (fun i _ h2 => hfail i h2) hsucc (Or.inl rfl)
  · exact openWithRetryGo_zero_sound fAny fuel 0 s n
  · intro hfail
    exact openWithRetryGo_zero_none fFail fuel 0 (fun i _ h2 => hfail i (by omega))

/-- C7 witness: the retry loop at concrete oracles — one that always fails
(3 tries out of 5 iterations allowed; indefinite retry returns nothing)
and one that first succeeds on the second attempt. -/
theorem openWithRetry_spec_witness :
    openWithRetry (fun _ => Status.error .generalError "down") 3 5 =
      some (Status.error .generalError "down", 3) ∧
    (openWithRetry (fun i => if i = 1 then Status.ok
        else Status.error .generalError "down") 3 5 = some (Status.ok, 2) ∧
      openWithRetry (fun i => if i = 1 then Status.ok
        else Status.error .generalError "down") 0 5 = some (Status.ok, 2)) ∧
    (Status.isOk Status.ok = true ∧
      Status.ok = (fun i => if i = 1 then Status.ok
        else Status.error .generalError "down") (2 - 1)) ∧
    openWithRetry (fun _ => Status.error .generalError "down") 0 5 = none := by
  have h := openWithRetry_spec (fun _ => Status.error .generalError "down")
    (fun i => if i = 1 then Status.ok else Status.error .generalError "down")
    (fun i => if i = 1 then Status.ok else Status.error .generalError "down")
    3 5 1 2 Status.ok
  refine ⟨?_, ?_, ?_, ?_⟩
  · exact h.1 (by omega) (by omega) (fun i _ => rfl)
  · have h2 := h.2.1 (by omega) (by omega) (by decide)
      (fun i hi => by
        have hi0 : i = 0 := by omega
        subst hi0
        rfl)
    exact ⟨h2.1, h2.2⟩
  · exact h.2.2.1 (by decide)
  · exact h.2.2.2 (fun i _ => rfl)

theorem lookup_append_of_some (n : String) (c : ProfileCounter)
    (l1 l2 : List (String × ProfileCounter)) (h : l1.lookup n = some c) :
    (l1 ++ l2).lookup n = some c := by
  induction l1 with
  | nil => simp [List.lookup] at h
  | cons kv rest ih =>
    obtain ⟨k, v⟩ := kv
    simp only [List.cons_append, List.lookup] at h ⊢
    by_cases hk : (n == k) = true
    · simp only [hk] at h ⊢
      exact h
    · have hk' : (n == k) = false := by simpa using hk
      simp only [hk'] at h ⊢
      exact ih h

theorem lookup_append_of_none (n : String)
    (l1 l2 : List (String × ProfileCounter)) (h : l1.lookup n = none) :
    (l1 ++ l2).lookup n = l2.lookup n := by
  induction l1 with
  | nil => simp
  | cons kv rest ih =>
    obtain ⟨k, v⟩ := kv
    simp only [List.cons_append, List.lookup] at h ⊢
    by_cases hk : (n == k) = true
    · simp only [hk] at h
      exact Option.noConfusion h
    · have hk' : (n == k) = false := by simpa using hk
      simp only [hk'] at h ⊢
      exact ih h

/-- A counter map is well-formed when looking up any registered entry's name
yields that entry (equivalently: names are unique in the map). -/
def WellFormedProfile (p : RuntimeProfile) : Prop :=
  ∀ nc ∈ p.counters, p.counters.lookup nc.1 = some nc.2

theorem addCounter_of_lookup_some (name : String) (t : TCounterType)
    (p : RuntimeProfile) (c : ProfileCounter)
    (h : p.counters.lookup name = some c) :
    RuntimeProfile.addCounter name t p = (c, p) := by
  unfold RuntimeProfile.addCounter
  rw [h]

theorem addCounter_registers (name : String) (t : TCounterType)
    (p : RuntimeProfile) :
    ((RuntimeProfile.addCounter name t p).2).counters.lookup name =
      some (RuntimeProfile.addCounter name t p).1 := by
  unfold RuntimeProfile.addCounter
  cases hl : p.counters.lookup name with
  | some c => simpa using hl
  | none =>
    simp only
    rw [lookup_append_of_none name _ _ hl]
    simp [List.lookup]

theorem wellFormed_addCounter (name : String) (t : TCounterType)
    (p : RuntimeProfile) (hwf : WellFormedProfile p) :
    WellFormedProfile (RuntimeProfile.addCounter name t p).2 := by
  unfold RuntimeProfile.addCounter
  cases hl : p.counters.lookup name with
  | some c => exact hwf
  | none =>
    intro nc hnc
    simp only at hnc ⊢
    rcases List.mem_append.1 hnc with hmem | hmem
    · exact lookup_append_of_some nc.1 nc.2 _ _ (hwf nc hmem)
    · have : nc = (name, ⟨p.nextId, t⟩) := by simpa using hmem
      subst this
      rw [lookup_append_of_none name _ _ hl]
      simp [List.lookup]

theorem wellFormed_buildProfile (ops : List (String × TCounterType)) :
    WellFormedProfile (buildProfile ops) := by
  suffices h : ∀ (l : List (String × TCounterType)) (p : RuntimeProfile),
      WellFormedProfile p →
      WellFormedProfile
        (l.foldl (fun q op => (RuntimeProfile.addCounter op.1 op.2 q).2) p) by
    exact h ops RuntimeProfile.empty (by intro nc hnc; simp [RuntimeProfile.empty] at hnc)
  intro l
  induction l with
  | nil => intro p hp; exact hp
  | cons op rest ih =>
    intro p hp
    exact ih _ (wellFormed_addCounter op.1 op.2 p hp)

/-- C9: in any profile reachable by a sequence of `AddCounter` calls,
calling `AddCounter(name, type)` a second time returns the same counter
object the first call returned (no duplicate is created), and for every
counter already registered, `GetCounter` on its name returns exactly that
counter — counter names are unique within a profile. -/
theorem addCounter_idempotent_getCounter_consistent
    (ops : List (String × TCounterType)) (name : String) (t : TCounterType) :
    (RuntimeProfile.addCounter name t
        (RuntimeProfile.addCounter name t (buildProfile ops)).2).1 =
      (RuntimeProfile.addCounter name t (buildProfile ops)).1 ∧
    (RuntimeProfile.addCounter name t
        (RuntimeProfile.addCounter name t (buildProfile ops)).2).2 =
      (RuntimeProfile.addCounter name t (buildProfile ops)).2 ∧
    ∀ nc ∈ (buildProfile ops).counters,
      RuntimeProfile.getCounter nc.1 (buildProfile ops) = some nc.2 := by
  have hreg := addCounter_registers name t (buildProfile ops)
  have hsecond := addCounter_of_lookup_some name t
    (RuntimeProfile.addCounter name t (buildProfile ops)).2
    (RuntimeProfile.addCounter name t (buildProfile ops)).1 hreg
  refine ⟨?_, ?_, ?_⟩
  · rw [hsecond]
  · rw [hsecond]
  · intro nc hnc
    exact wellFormed_buildProfile ops nc hnc

/-- C9 witness: a profile with two counters; re-adding "A" returns the
existing counter and leaves the profile unchanged, and `GetCounter`
retrieves each registered counter. -/
theorem addCounter_idempotent_getCounter_consistent_witness :
    (RuntimeProfile.addCounter "A" .unit
        (RuntimeProfile.addCounter "A" .unit
          (buildProfile [("A", .unit), ("B", .bytes)])).2).1 =
      (RuntimeProfile.addCounter "A" .unit
        (buildProfile [("A", .unit), ("B", .bytes)])).1 ∧
    RuntimeProfile.getCounter "B" (buildProfile [("A", .unit), ("B", .bytes)]) =
      some ⟨1, .bytes⟩ := by
  have h := addCounter_idempotent_getCounter_consistent
    [("A", .unit), ("B", .bytes)] "A" .unit
  refine ⟨h.1, ?_⟩
  have hm : ("B", (⟨1, .bytes⟩ : ProfileCounter)) ∈
      (buildProfile [("A", .unit), ("B", .bytes)]).counters := by decide
  exact h.2.2 ("B", ⟨1, .bytes⟩) hm

theorem projectInit_ok_bounds (cols : Nat) :
    ∀ (entries : List (List Char)) (l : List Int),
      projectInit cols entries = .ok l → ∀ x ∈ l, 0 ≤ x ∧ x < (cols : Int) := by
  intro entries
  induction entries with
  | nil =>
    intro l h x hx
    simp only [projectInit, Except.ok.injEq] at h
    subst h
    simp at hx
  | cons e rest ih =>
    intro l h x hx
    unfold projectInit at h
    by_cases h1 : parseInput e ≤ -1
    · rw [if_pos h1] at h
      exact Except.noConfusion h
    · rw [if_neg h1] at h
      by_cases h2 : cols ≤ (parseInput e).toNat
      · rw [if_pos h2] at h
        exact Except.noConfusion h
      · rw [if_neg h2] at h
        cases hr : projectInit cols rest with
        | ok l2 =>
          rw [hr] at h
          simp only [Except.ok.injEq] at h
          subst h
          rcases List.mem_cons.1 hx with hx1 | hx2
          · subst hx1
            constructor <;> omega
          · exact ih l2 hr x hx2
        | error err =>
          rw [hr] at h
          exact Except.noConfusion h

/-- C10: `Project::init` validates every projection entry — an entry whose
`parseInput` result is -1 (e.g. a string with no `$`) raises
`InvalidParameter`; an entry parsing to an index at or past the source
schema's column count raises `IllegalSchemaDeclarationException`; hence
after a successful `init` every element of `projlist` is a valid source
column index, and `Project::map` reads only existing source columns. -/
theorem projectInit_validates (cols : Nat) (eBad eBig : List Char)
    (rest entries : List (List Char)) (l : List Int) (row : List Int) :
    (parseInput eBad = -1 →
      projectInit cols (eBad :: rest) = .error .invalidParameter) ∧
    (0 ≤ parseInput eBig → (cols : Int) ≤ parseInput eBig →
      projectInit cols (eBig :: rest) = .error .illegalSchemaDeclaration) ∧
    (projectInit cols entries = .ok l → ∀ x ∈ l, 0 ≤ x ∧ x < (cols : Int)) ∧
    (projectInit cols entries = .ok l → row.length = cols →
      ∀ o ∈ projectMapRow row l, o.isSome = true) := by
  refine ⟨?_, ?_, projectInit_ok_bounds cols entries l, ?_⟩
  · intro h
    unfold projectInit
    rw [if_pos (by omega)]
  · intro h0 hc
    unfold projectInit
    rw [if_neg (by omega), if_pos (by omega)]
  · intro hok hlen o ho
    obtain ⟨i, hi, rfl⟩ := List.mem_map.1 ho
    have hb := projectInit_ok_bounds cols entries l hok i hi
    cases hg : row.get? i.toNat with
    | none =>
      have := List.get?_eq_none.1 hg
      omega
    | some v => rfl

/-- C10 witness: a schema with three columns — an unparsable entry raises
`InvalidParameter`, an out-of-range entry raises
`IllegalSchemaDeclarationException`, and a successful `init` yields only
valid column indices, which `map` can always read. -/
theorem projectInit_validates_witness :
    projectInit 3 ["abc".toList, "$1".toList] = .error .invalidParameter ∧
    projectInit 3 ["$7".toList, "$1".toList] = .error .illegalSchemaDeclaration ∧
    (∀ x ∈ [(0 : Int), 2], 0 ≤ x ∧ x < (3 : Int)) ∧
    (∀ o ∈ projectMapRow [10, 20, 30] [0, 2], o.isSome = true) := by
  have h1 := (projectInit_validates 3 "abc".toList "$7".toList
    ["$1".toList] ["$0".toList, "$2".toList] [0, 2] [10, 20, 30]).1 (by decide)
  have h2 := (projectInit_validates 3 "abc".toList "$7".toList
    ["$1".toList] ["$0".toList, "$2".toList] [0, 2] [10, 20, 30]).2.1
    (by decide) (by decide)
  have h3 := (projectInit_validates 3 "abc".toList "$7".toList
    ["$1".toList] ["$0".toList, "$2".toList] [0, 2] [10, 20, 30]).2.2.1
    (by rfl)
  have h4 := (projectInit_validates 3 "abc".toList "$7".toList
    ["$1".toList] ["$0".toList, "$2".toList] [0, 2] [10, 20, 30]).2.2.2
    (by rfl) (by decide)
  exact ⟨h1, h2, h3, h4⟩

end ImpalaPythia
